import Mathlib

/-!
Shallow embedding of `tcping` (src/src/main.rs), a TCP reachability and
latency probe, together with proofs about its statistics accumulator,
its probing loop and its command-line parameter validation.

Modelling conventions:
* `f64` values are modelled as exact rationals (`ℚ`); the special seed
  constants `f64::MAX` / `f64::MIN` are the exact rational values of those
  floats.  Floating-point rounding is not modelled: the claims under study
  are structural / algebraic, not about rounding.
* `u32` / `u64` counters are modelled as `ℕ`.  Wrap-around is not modelled:
  within one run `iterations` never exceeds `interval_count`, which the
  parser bounds below `2^32`.
* `Duration::from_secs` values are modelled as their whole number of
  seconds (`ℕ`).
* I/O (printing, connecting, sleeping) is modelled by oracles and by
  counters in the loop model `runFuel`.
-/

deriving instance DecidableEq for Except

namespace Tcping

/-- The exact rational value of `f64::MAX` (`std::f64::MAX` in the source):
`(2 - 2⁻⁵²) · 2¹⁰²³ = 2¹⁰²⁴ - 2⁹⁷¹`. -/
def f64MAX : ℚ := 2 ^ 1024 - 2 ^ 971

/-- The exact rational value of `f64::MIN` (`std::f64::MIN` in the source),
which is `-f64::MAX`. -/
def f64MIN : ℚ := -f64MAX

/-- `struct ResultCollection` from the source: the streaming statistics
accumulator.  Field names and order follow the Rust struct. -/
structure ResultCollection where
  iterations : ℕ
  successes : ℕ
  millis_min : ℚ
  millis_max : ℚ
  millis_squared : ℚ
  millis_added : ℚ
  deriving DecidableEq

namespace ResultCollection

/-- `ResultCollection::new()`: all counters zero, `millis_min` seeded to
`f64::MAX` and `millis_max` seeded to `f64::MIN`. -/
def new : ResultCollection :=
  { iterations := 0, successes := 0, millis_min := f64MAX, millis_max := f64MIN,
    millis_squared := 0, millis_added := 0 }

/-- `ResultCollection::add_interval(&mut self, successful, millis)`:
unconditionally increments `iterations`; on success also increments
`successes`, adds `millis` to `millis_added`, adds `millis * millis` to
`millis_squared`, and updates the extrema by plain comparison. -/
def add_interval (rc : ResultCollection) (successful : Bool) (millis : ℚ) :
    ResultCollection :=
  let rc := { rc with iterations := rc.iterations + 1 }
  if successful then
    { rc with
      successes := rc.successes + 1
      millis_added := rc.millis_added + millis
      millis_squared := rc.millis_squared + millis * millis
      millis_min := if millis < rc.millis_min then millis else rc.millis_min
      millis_max := if rc.millis_max < millis then millis else rc.millis_max }
  else
    rc

/-- `ResultCollection::get_avg`: `0` when `successes == 0`, otherwise
`millis_added / successes`.  (The Rust `match self.successes` with arms
`0` and `_` is rendered as the equivalent zero test.) -/
def get_avg (rc : ResultCollection) : ℚ :=
  if rc.successes = 0 then 0
  else rc.millis_added / (rc.successes : ℚ)

/-- The variance expression from the `else` branch of
`ResultCollection::get_std_dev`:
`(millis_squared + n·avg·avg - 2·millis_added·avg) / n` with
`avg = millis_added / n`.  Factored out so that the (necessarily
noncomputable) square root is isolated in `get_std_dev`. -/
def get_variance (rc : ResultCollection) : ℚ :=
  let avg : ℚ := rc.millis_added / (rc.successes : ℚ)
  (rc.millis_squared + ((rc.successes : ℚ) * avg * avg)
    - (2 * rc.millis_added * avg)) / (rc.successes : ℚ)

/-- `ResultCollection::get_std_dev`: `0` when `successes == 0`, otherwise
the square root of the running variance. -/
noncomputable def get_std_dev (rc : ResultCollection) : ℝ :=
  if rc.successes = 0 then 0
  else Real.sqrt ((rc.get_variance : ℚ) : ℝ)

/-- `ResultCollection::get_min`: `0` when `successes == 0`, otherwise the
running minimum. -/
def get_min (rc : ResultCollection) : ℚ :=
  if rc.successes = 0 then 0
  else rc.millis_min

/-- `ResultCollection::get_max`: `0` when `successes == 0`, otherwise the
running maximum. -/
def get_max (rc : ResultCollection) : ℚ :=
  if rc.successes = 0 then 0
  else rc.millis_max

end ResultCollection

/-- Replay a whole sequence of `add_interval` calls starting from
`ResultCollection::new()`. -/
def applyAll (l : List (Bool × ℚ)) : ResultCollection :=
  l.foldl (fun rc p => rc.add_interval p.1 p.2) ResultCollection.new

-- Sanity checks on small concrete inputs (spec §8: successes 10, 20, 30).
example :
    (applyAll [(true, 10), (true, 20), (true, 30)]).get_avg = 20 := by
  norm_num [applyAll, ResultCollection.add_interval, ResultCollection.new,
    ResultCollection.get_avg, f64MAX, f64MIN]
example :
    (applyAll [(true, 10), (true, 20), (true, 30)]).get_min = 10 := by
  norm_num [applyAll, ResultCollection.add_interval, ResultCollection.new,
    ResultCollection.get_min, f64MAX, f64MIN]
example :
    (applyAll [(true, 10), (true, 20), (true, 30)]).get_max = 30 := by
  norm_num [applyAll, ResultCollection.add_interval, ResultCollection.new,
    ResultCollection.get_max, f64MAX, f64MIN]
example :
    (applyAll [(true, 10), (false, 0), (true, 30)]).successes = 2 := by
  norm_num [applyAll, ResultCollection.add_interval, ResultCollection.new,
    f64MAX, f64MIN]
example : (applyAll []).get_avg = 0 := by
  simp [applyAll, ResultCollection.new, ResultCollection.get_avg]

/-! ### Helper lemmas about the accumulator -/

theorem add_interval_iterations (rc : ResultCollection) (s : Bool) (m : ℚ) :
    (rc.add_interval s m).iterations = rc.iterations + 1 := by
  cases s <;> simp [ResultCollection.add_interval]

theorem add_interval_false_eq (rc : ResultCollection) (m : ℚ) :
    rc.add_interval false m = { rc with iterations := rc.iterations + 1 } := by
  simp [ResultCollection.add_interval]

theorem add_interval_true_min_le (rc : ResultCollection) (m : ℚ) :
    (rc.add_interval true m).millis_min ≤ m := by
  simp only [ResultCollection.add_interval, if_pos]
  split
  · exact le_refl m
  · exact le_of_not_lt (by assumption)

theorem add_interval_true_le_max (rc : ResultCollection) (m : ℚ) :
    m ≤ (rc.add_interval true m).millis_max := by
  simp only [ResultCollection.add_interval, if_pos]
  split
  · exact le_refl m
  · exact le_of_not_lt (by assumption)

/-- The accumulator invariant from spec §3: `successes ≤ iterations`, and
`millis_min ≤ millis_max` whenever at least one success was recorded. -/
def AccInv (rc : ResultCollection) : Prop :=
  rc.successes ≤ rc.iterations ∧
    (0 < rc.successes → rc.millis_min ≤ rc.millis_max)

theorem accInv_new : AccInv ResultCollection.new := by
  constructor
  · exact le_refl 0
  · intro h; exact absurd h (by simp [ResultCollection.new])

theorem accInv_step (rc : ResultCollection) (s : Bool) (m : ℚ)
    (h : AccInv rc) : AccInv (rc.add_interval s m) := by
  obtain ⟨h1, h2⟩ := h
  cases s with
  | false =>
    refine ⟨?_, ?_⟩
    · rw [add_interval_false_eq]
      exact le_trans h1 (Nat.le_succ _)
    · rw [add_interval_false_eq]
      exact h2
  | true =>
    refine ⟨?_, ?_⟩
    · rw [add_interval_iterations]
      show rc.successes + 1 ≤ rc.iterations + 1
      exact Nat.succ_le_succ h1
    · intro _
      exact le_trans (add_interval_true_min_le rc m)
        (add_interval_true_le_max rc m)

theorem accInv_foldl (l : List (Bool × ℚ)) :
    ∀ rc : ResultCollection, AccInv rc →
      AccInv (l.foldl (fun rc p => rc.add_interval p.1 p.2) rc) := by
  induction l with
  | nil => intro rc h; exact h
  | cons p t ih =>
    intro rc h
    exact ih _ (accInv_step rc p.1 p.2 h)

theorem accInv_applyAll (l : List (Bool × ℚ)) : AccInv (applyAll l) :=
  accInv_foldl l ResultCollection.new accInv_new

/-! ### Claims C1 to C5 -/

/-- C1: for every sequence of `add_interval` calls starting from
`ResultCollection::new()`, each call increments `iterations` by exactly 1,
`successes ≤ iterations` holds after every call, and whenever
`successes > 0` the running minimum is at most the running maximum. -/
theorem c1_record_invariants (l : List (Bool × ℚ)) (s : Bool) (m : ℚ) :
    ((applyAll l).add_interval s m).iterations = (applyAll l).iterations + 1 ∧
    (applyAll l).successes ≤ (applyAll l).iterations ∧
    (0 < (applyAll l).successes →
      (applyAll l).millis_min ≤ (applyAll l).millis_max) :=
  ⟨add_interval_iterations _ s m, (accInv_applyAll l).1, (accInv_applyAll l).2⟩

/-- Witness for C1 at a concrete sequence with one success. -/
theorem c1_record_invariants_witness :
    (applyAll [(true, 5)]).millis_min ≤ (applyAll [(true, 5)]).millis_max :=
  (c1_record_invariants [(true, 5)] false 0).2.2 (by
    norm_num [applyAll, ResultCollection.add_interval, ResultCollection.new])

/-- C2: when `successes == 0` all four accessors return the defined
sentinel `0` (not an error value). -/
theorem c2_zero_success_sentinel (rc : ResultCollection)
    (h : rc.successes = 0) :
    rc.get_avg = 0 ∧ rc.get_min = 0 ∧ rc.get_max = 0 ∧
      rc.get_std_dev = 0 := by
  refine ⟨?_, ?_, ?_, ?_⟩ <;>
    simp [ResultCollection.get_avg, ResultCollection.get_min,
      ResultCollection.get_max, ResultCollection.get_std_dev, h]

/-- Witness for C2 at the freshly created accumulator. -/
theorem c2_zero_success_sentinel_witness :
    ResultCollection.new.successes = 0 ∧
      (ResultCollection.new.get_avg = 0 ∧ ResultCollection.new.get_min = 0 ∧
        ResultCollection.new.get_max = 0 ∧
        ResultCollection.new.get_std_dev = 0) :=
  ⟨rfl, c2_zero_success_sentinel ResultCollection.new rfl⟩

/-- C3: with `successes = n > 0`, `get_std_dev` returns
`sqrt((millis_squared + n·μ² − 2·μ·millis_added) / n)` where `μ` is exactly
the value `get_avg` returns, namely `millis_added / n`; it is computed from
the running totals only (the state stores no sample list). -/
theorem c3_std_dev_formula (rc : ResultCollection) (h : 0 < rc.successes) :
    rc.get_avg = rc.millis_added / (rc.successes : ℚ) ∧
    rc.get_std_dev = Real.sqrt
      (((rc.millis_squared
          + (rc.successes : ℚ) * rc.get_avg * rc.get_avg
          - 2 * rc.get_avg * rc.millis_added) / (rc.successes : ℚ) : ℚ) : ℝ) := by
  have hne : rc.successes ≠ 0 := Nat.pos_iff_ne_zero.mp h
  have havg : rc.get_avg = rc.millis_added / (rc.successes : ℚ) := by
    simp [ResultCollection.get_avg, hne]
  refine ⟨havg, ?_⟩
  have hvar : rc.get_variance
      = (rc.millis_squared + (rc.successes : ℚ) * rc.get_avg * rc.get_avg
          - 2 * rc.get_avg * rc.millis_added) / (rc.successes : ℚ) := by
    rw [havg]
    simp only [ResultCollection.get_variance]
    ring
  rw [ResultCollection.get_std_dev, if_neg hne, hvar]

/-- Witness for C3 at an accumulator holding two successes. -/
theorem c3_std_dev_formula_witness :
    0 < (applyAll [(true, 10), (true, 20)]).successes ∧
      ((applyAll [(true, 10), (true, 20)]).get_avg
          = (applyAll [(true, 10), (true, 20)]).millis_added
            / ((applyAll [(true, 10), (true, 20)]).successes : ℚ) ∧
        (applyAll [(true, 10), (true, 20)]).get_std_dev = Real.sqrt
          ((((applyAll [(true, 10), (true, 20)]).millis_squared
              + ((applyAll [(true, 10), (true, 20)]).successes : ℚ)
                * (applyAll [(true, 10), (true, 20)]).get_avg
                * (applyAll [(true, 10), (true, 20)]).get_avg
              - 2 * (applyAll [(true, 10), (true, 20)]).get_avg
                * (applyAll [(true, 10), (true, 20)]).millis_added)
            / ((applyAll [(true, 10), (true, 20)]).successes : ℚ) : ℚ) : ℝ)) :=
  ⟨by norm_num [applyAll, ResultCollection.add_interval, ResultCollection.new],
    c3_std_dev_formula _ (by
      norm_num [applyAll, ResultCollection.add_interval, ResultCollection.new])⟩

theorem foldl_failures (l : List ℚ) :
    ∀ rc : ResultCollection,
      (l.map fun x => (false, x)).foldl
          (fun rc p => rc.add_interval p.1 p.2) rc
        = { rc with iterations := rc.iterations + l.length } := by
  induction l with
  | nil => intro rc; simp
  | cons x t ih =>
    intro rc
    simp only [List.map_cons, List.foldl_cons]
    rw [add_interval_false_eq, ih]
    simp only [List.length_cons]
    congr 1
    omega

theorem applyAll_failures (l : List ℚ) :
    applyAll (l.map fun x => (false, x))
      = { ResultCollection.new with iterations := l.length } := by
  rw [applyAll, foldl_failures]
  simp [ResultCollection.new]

/-- C4: from `new()`, after any number of failed records and exactly one
successful record with value `v` (any value in the representable range of a
finite `f64`, i.e. `f64::MIN ≤ v ≤ f64::MAX`), the first success sets both
extrema, so `get_avg = v`, `get_min = get_max = v` and `get_std_dev = 0`. -/
theorem c4_single_success (l : List ℚ) (v : ℚ) (rc : ResultCollection)
    (hrc : rc = (applyAll (l.map fun x => (false, x))).add_interval true v)
    (h₁ : f64MIN ≤ v) (h₂ : v ≤ f64MAX) :
    rc.get_avg = v ∧ rc.get_min = v ∧ rc.get_max = v ∧
      rc.get_std_dev = 0 := by
  rw [applyAll_failures] at hrc
  have hs : rc.successes = 1 := by
    rw [hrc]; simp [ResultCollection.add_interval, ResultCollection.new]
  have hadded : rc.millis_added = v := by
    rw [hrc]; simp [ResultCollection.add_interval, ResultCollection.new]
  have hsq : rc.millis_squared = v * v := by
    rw [hrc]; simp [ResultCollection.add_interval, ResultCollection.new]
  have hmin : rc.millis_min = if v < f64MAX then v else f64MAX := by
    rw [hrc]; simp [ResultCollection.add_interval, ResultCollection.new]
  have hmax : rc.millis_max = if f64MIN < v then v else f64MIN := by
    rw [hrc]; simp [ResultCollection.add_interval, ResultCollection.new]
  refine ⟨?_, ?_, ?_, ?_⟩
  · simp [ResultCollection.get_avg, hs, hadded]
  · simp only [ResultCollection.get_min, hs, one_ne_zero, if_false, hmin]
    split
    · rfl
    · exact (le_antisymm h₂ (le_of_not_lt (by assumption))).symm
  · simp only [ResultCollection.get_max, hs, one_ne_zero, if_false, hmax]
    split
    · rfl
    · exact le_antisymm h₁ (le_of_not_lt (by assumption))
  · have hvar : rc.get_variance = 0 := by
      simp only [ResultCollection.get_variance, hs, hadded, hsq,
        Nat.cast_one, div_one]
      ring
    simp [ResultCollection.get_std_dev, hs, hvar]

/-- Witness for C4: one failure then one success with value 5. -/
theorem c4_single_success_witness :
    (f64MIN ≤ (5 : ℚ) ∧ (5 : ℚ) ≤ f64MAX) ∧
      (((applyAll ([7].map fun x => (false, x))).add_interval
          true 5).get_avg = 5 ∧
        ((applyAll ([7].map fun x => (false, x))).add_interval
          true 5).get_min = 5 ∧
        ((applyAll ([7].map fun x => (false, x))).add_interval
          true 5).get_max = 5 ∧
        ((applyAll ([7].map fun x => (false, x))).add_interval
          true 5).get_std_dev = 0) :=
  ⟨⟨by norm_num [f64MIN, f64MAX], by norm_num [f64MAX]⟩,
    c4_single_success [7] 5 _ rfl (by norm_num [f64MIN, f64MAX])
      (by norm_num [f64MAX])⟩

/-- C5: a failed record changes only `iterations`; all other fields of the
accumulator are left unchanged, whatever elapsed value is passed. -/
theorem c5_failure_frame (rc : ResultCollection) (x : ℚ) :
    (rc.add_interval false x).iterations = rc.iterations + 1 ∧
    (rc.add_interval false x).successes = rc.successes ∧
    (rc.add_interval false x).millis_added = rc.millis_added ∧
    (rc.add_interval false x).millis_squared = rc.millis_squared ∧
    (rc.add_interval false x).millis_min = rc.millis_min ∧
    (rc.add_interval false x).millis_max = rc.millis_max := by
  rw [add_interval_false_eq]
  exact ⟨rfl, rfl, rfl, rfl, rfl, rfl⟩

/-! ### The probing loop (`run_connection_tests`)

The loop's I/O is modelled by an oracle `outcomes : ℕ → Bool × ℚ` giving,
for each attempt index, whether `TcpStream::connect_timeout` succeeded and
the measured elapsed milliseconds.  As in the source, a failed attempt
records `(false, 0)` whatever the oracle's second component is.  Sleeps
(`thread::sleep`) and connection attempts are counted explicitly.  The
source's unbounded `loop` is modelled with fuel: `none` means the fuel was
exhausted before the loop's `break` was reached. -/

/-- One unfolding of the `loop` body of `run_connection_tests` per unit of
fuel: attempt, record, then either `break` (when `iterations` has reached
`interval_count`) or sleep and continue.  Returns the final accumulator,
the number of sleeps performed and the number of attempts performed. -/
def runFuel (outcomes : ℕ → Bool × ℚ) (interval_count : ℕ) :
    ℕ → ResultCollection → ℕ → ℕ → Option (ResultCollection × ℕ × ℕ)
  | 0, _, _, _ => none
  | fuel + 1, rc, sleeps, attempts =>
    let o := outcomes attempts
    let rc' := if o.1 then rc.add_interval true o.2
      else rc.add_interval false 0
    if rc'.iterations = interval_count then some (rc', sleeps, attempts + 1)
    else runFuel outcomes interval_count fuel rc' (sleeps + 1) (attempts + 1)

/-- `run_connection_tests` as called from `main`: the accumulator starts
from `ResultCollection::new()`, and giving the loop `interval_count` units
of fuel suffices (this is the termination content of claim C6). -/
def run_connection_tests (outcomes : ℕ → Bool × ℚ) (interval_count : ℕ) :
    Option (ResultCollection × ℕ × ℕ) :=
  runFuel outcomes interval_count interval_count ResultCollection.new 0 0

/-! ### Command-line parameter parsing (`ProgParameters::new`) -/

/-- `enum CmdLineOpts` from the source. -/
inductive CmdLineOpts where
  | AppName
  | HostName
  | PortVal
  | Intervals
  | TimeOut
  | Wait
  | Unset
  deriving DecidableEq

/-- The `HashMap<CmdLineOpts, &String>` of the source, specialised to the
five flag keys that the scan loop can actually insert (`AppName` and
`Unset` are handled by earlier match arms and never reach the insert). -/
structure OptionMap where
  host : Option String
  port : Option String
  intervals : Option String
  timeout : Option String
  wait : Option String
  deriving DecidableEq

/-- The empty map the scan starts from (`HashMap::new()`). -/
def OptionMap.empty : OptionMap :=
  { host := none, port := none, intervals := none, timeout := none,
    wait := none }

/-- `option_map.insert(cmd_line_opt, arg)`: a later insert for the same key
overwrites the earlier value, as `HashMap::insert` does.  `AppName` and
`Unset` are never used as keys in the source and are mapped to no-ops. -/
def OptionMap.insert (m : OptionMap) (k : CmdLineOpts) (v : String) :
    OptionMap :=
  match k with
  | .HostName => { m with host := some v }
  | .PortVal => { m with port := some v }
  | .Intervals => { m with intervals := some v }
  | .TimeOut => { m with timeout := some v }
  | .Wait => { m with wait := some v }
  | _ => m

/-- The argument scan loop of `ProgParameters::new` (the state machine over
`cmd_line_opt`), including the trailing dangling-option check: an empty
remainder is accepted exactly in the `Unset` state.  The first argument
(the app name) is skipped whatever it is. -/
def scanArgs : CmdLineOpts → OptionMap → List String → Except String OptionMap
  | st, m, [] =>
    if st = CmdLineOpts.Unset then .ok m else .error "Invalid Parameters"
  | .AppName, m, _ :: rest => scanArgs .Unset m rest
  | .Unset, m, a :: rest =>
    if a = "-h" then scanArgs .HostName m rest
    else if a = "-p" then scanArgs .PortVal m rest
    else if a = "-i" then scanArgs .Intervals m rest
    else if a = "-t" then scanArgs .TimeOut m rest
    else if a = "-w" then scanArgs .Wait m rest
    else .error "Invalid Parameters"
  | st, m, a :: rest => scanArgs .Unset (m.insert st a) rest

/-- Model of Rust `str::parse::<uN>` for unsigned integer types: an
optional leading `+`, then one or more ASCII digits; anything else fails,
as does a value reaching `bound` (overflow).  In particular a negative
string such as `"-1"` fails. -/
def parseUInt (bound : ℕ) (s : String) : Option ℕ :=
  let ds := match s.data with
    | '+' :: rest => rest
    | cs => cs
  if ds.isEmpty then none
  else if ds.all (fun c => c.isDigit) then
    let v := ds.foldl (fun a c => a * 10 + (c.toNat - 48)) 0
    if v < bound then some v else none
  else none

/-- `val.parse::<u32>()`. -/
def parseU32 (s : String) : Option ℕ := parseUInt (2 ^ 32) s

/-- `val.parse::<u64>()`. -/
def parseU64 (s : String) : Option ℕ := parseUInt (2 ^ 64) s

/-- Modelled from the spec: the resolved network endpoint produced by the
external address-resolution collaborator (`std::net::SocketAddr`); only
the host and port are retained. -/
structure SocketAddr where
  host : String
  port : ℕ
  deriving DecidableEq

/-- `struct ProgParameters` from the source.  The two `Duration` fields
are modelled by their whole number of seconds, which is how the source
constructs them (`Duration::from_secs`). -/
structure ProgParameters where
  target_host : String
  target_port : String
  interval_count : ℕ
  connection_timeout : ℕ
  wait_interval : ℕ
  bare_socket : SocketAddr
  deriving DecidableEq

/-- The wait-interval block of `ProgParameters::new`: parse the `-w` value
as `u64`, coercing values below 1 up to 1 second; default 1 second when
`-w` is absent. -/
def computeWait (o : Option String) : Except String ℕ :=
  match o with
  | some val =>
    match parseU64 val with
    | some w => .ok (if w < 1 then 1 else w)
    | none => .error "Invalid Wait"
  | none => .ok 1

/-- The connection-timeout block of `ProgParameters::new`: parse the `-t`
value as `u64`, coercing values below 1 up to 1 second; default 5 seconds
when `-t` is absent. -/
def computeTimeout (o : Option String) : Except String ℕ :=
  match o with
  | some val =>
    match parseU64 val with
    | some t => .ok (if t < 1 then 1 else t)
    | none => .error "Invalid Timeout"
  | none => .ok 5

/-- `ProgParameters::new`.  The external `to_socket_addrs()` call on the
`format!`-ed `host:port` string is passed in as `resolve`: `none` models
the `Err(_)` arm (`"Invalid host/port"`) and `some l` models `Ok(iter)`
with `l` the iterator's addresses, so `some []` models an iterator whose
`next()` is `None` (`"Unresolvable host/port"`). -/
def ProgParameters.new (resolve : String → Option (List SocketAddr))
    (args : List String) : Except String ProgParameters :=
  match scanArgs .AppName OptionMap.empty args with
  | .error e => .error e
  | .ok option_map =>
    match option_map.intervals with
    | none => .error "Missing Intervals argument"
    | some val =>
      match parseU32 val with
      | none => .error "Invalid Interval"
      | some interval_count =>
        if interval_count < 1 then .error "Need at least 1 Interval"
        else
          match computeWait option_map.wait with
          | .error e => .error e
          | .ok wait_interval =>
            match computeTimeout option_map.timeout with
            | .error e => .error e
            | .ok connection_timeout =>
              match option_map.host with
              | none => .error "Host required!"
              | some target_host =>
                match option_map.port with
                | none => .error "Port required!"
                | some target_port =>
                  match resolve (target_host ++ ":" ++ target_port) with
                  | none => .error "Invalid host/port"
                  | some [] => .error "Unresolvable host/port"
                  | some (bare_socket :: _) =>
                    .ok { target_host := target_host,
                          target_port := target_port,
                          interval_count := interval_count,
                          connection_timeout := connection_timeout,
                          wait_interval := wait_interval,
                          bare_socket := bare_socket }

/-- `ProgParameters::get_usage`. -/
def get_usage : String :=
  "tcping -h -p -i -t -w\n\n \t-h\t(required) Host name, ipv4, or ipv6 address\n \t-p\t(required) Port (1-65535)\n \t-i\t(required) Intervals.  Number of tests to run before exit\n \t-t\tConnection Timeout. Wait before failing connection attempt (Default: OS Defined)\n \t-w\tWait Interval. Wait between intervals in seconds (Default: 1)\n"

/-- Whether an `Except` value is the error case. -/
def isError {α : Type} : Except String α → Bool
  | .error _ => true
  | .ok _ => false

/-- The observable outcome of `main` around parameter construction: on
`Err`, print the error followed by the usage block and exit with status 1
without invoking the probe runner (`unwrap_or_else` + `process::exit(1)`);
on `Ok`, hand the parameters to `run_connection_tests`. -/
inductive MainResult where
  | usageExit (printed : String) (code : ℕ)
  | probeRun (p : ProgParameters)
  deriving DecidableEq

/-- The parameter-handling prefix of `main`. -/
def mainModel (resolve : String → Option (List SocketAddr))
    (args : List String) : MainResult :=
  match ProgParameters.new resolve args with
  | .error e =>
    .usageExit ("\nERROR: " ++ e ++ "\n\nUsage: " ++ get_usage) 1
  | .ok p => .probeRun p

/-- Whether `main` reached `run_connection_tests`. -/
def invokesRunner : MainResult → Bool
  | .usageExit _ _ => false
  | .probeRun _ => true

/-! ### Helper lemmas about the loop and the parser -/

theorem runFuel_complete (outcomes : ℕ → Bool × ℚ) (count : ℕ) :
    ∀ (fuel : ℕ) (rc : ResultCollection) (sleeps attempts : ℕ),
      1 ≤ fuel → rc.iterations + fuel = count →
      Option.map (fun r => (r.1.iterations, r.2.1, r.2.2))
          (runFuel outcomes count fuel rc sleeps attempts)
        = some (count, sleeps + (fuel - 1), attempts + fuel) := by
  intro fuel
  induction fuel with
  | zero => intro rc sleeps attempts h1 _; exact absurd h1 (by omega)
  | succ f ih =>
    intro rc sleeps attempts h1 h2
    simp only [runFuel]
    set rc' := if (outcomes attempts).1
        then rc.add_interval true (outcomes attempts).2
        else rc.add_interval false 0 with hrc'
    have hit : rc'.iterations = rc.iterations + 1 := by
      rw [hrc']
      by_cases hb : (outcomes attempts).1
      · rw [if_pos hb, add_interval_iterations]
      · rw [if_neg hb, add_interval_iterations]
    by_cases hc : rc'.iterations = count
    · have hf : f = 0 := by omega
      subst hf
      rw [if_pos hc]
      simp [hc]
    · rw [if_neg hc]
      have hf : 1 ≤ f := by omega
      rw [ih rc' (sleeps + 1) (attempts + 1) hf (by omega)]
      simp only [Option.some.injEq, Prod.mk.injEq, eq_self_iff_true, true_and]
      exact ⟨by omega, by omega⟩

theorem new_ok_facts (resolve : String → Option (List SocketAddr))
    (args : List String) (p : ProgParameters)
    (h : ProgParameters.new resolve args = .ok p) :
    ∃ m : OptionMap, scanArgs .AppName OptionMap.empty args = .ok m ∧
      (∃ s, m.intervals = some s ∧ parseU32 s = some p.interval_count) ∧
      1 ≤ p.interval_count ∧
      computeWait m.wait = .ok p.wait_interval ∧
      computeTimeout m.timeout = .ok p.connection_timeout ∧
      m.host = some p.target_host ∧ m.port = some p.target_port := by
  unfold ProgParameters.new at h
  split at h
  · exact absurd h (by simp)
  rename_i m hscan
  refine ⟨m, hscan, ?_⟩
  split at h
  · exact absurd h (by simp)
  rename_i s hmi
  split at h
  · exact absurd h (by simp)
  rename_i ic hps
  split at h
  · exact absurd h (by simp)
  rename_i hlt
  split at h
  · exact absurd h (by simp)
  rename_i w hw
  split at h
  · exact absurd h (by simp)
  rename_i t ht
  split at h
  · exact absurd h (by simp)
  rename_i host hh
  split at h
  · exact absurd h (by simp)
  rename_i port hp
  split at h
  · exact absurd h (by simp)
  · exact absurd h (by simp)
  rename_i a rest hr
  have hinj := Except.ok.inj h
  subst hinj
  exact ⟨⟨s, hmi, hps⟩, Nat.not_lt.mp hlt, hw, ht, hh, hp⟩

/-- C6: starting from a fresh accumulator, for every attempt count ≥ 1 and
every sequence of per-attempt outcomes, the loop terminates within
`interval_count` iterations (fuel `interval_count` returns `some`),
performs exactly `interval_count` connection attempts, leaves
`iterations = interval_count`, and performs exactly `interval_count - 1`
inter-attempt sleeps (none after the final attempt). -/
theorem c6_loop_counts (outcomes : ℕ → Bool × ℚ) (count : ℕ)
    (h : 1 ≤ count) :
    Option.map (fun r => (r.1.iterations, r.2.1, r.2.2))
        (run_connection_tests outcomes count)
      = some (count, count - 1, count) := by
  have := runFuel_complete outcomes count count ResultCollection.new 0 0 h
    (by simp [ResultCollection.new])
  simpa [run_connection_tests] using this

/-- Witness for C6: five attempts against a target that always refuses
yield five attempts and four sleeps; with count 1 there are zero sleeps. -/
theorem c6_loop_counts_witness :
    (1 ≤ 5 ∧
      Option.map (fun r => (r.1.iterations, r.2.1, r.2.2))
          (run_connection_tests (fun _ => (false, 0)) 5)
        = some (5, 4, 5)) ∧
      Option.map (fun r => (r.1.iterations, r.2.1, r.2.2))
          (run_connection_tests (fun _ => (false, 0)) 1)
        = some (1, 0, 1) :=
  ⟨⟨by norm_num, c6_loop_counts (fun _ => (false, 0)) 5 (by norm_num)⟩,
    c6_loop_counts (fun _ => (false, 0)) 1 (by norm_num)⟩

/-- C7: `ProgParameters::new` returns `Err` for an unrecognized flag token,
a trailing flag with no following value, a missing `-i`/`-h`/`-p`, an
interval count that fails to parse or parses to `0`, and a wait or timeout
string that fails to parse as `u64` (negative or non-numeric); and whenever
it returns `Err`, `main` prints the error followed by the usage block,
exits with status 1, and never invokes the probe runner. -/
theorem c7_validation_rejects (resolve : String → Option (List SocketAddr))
    (args : List String) (m : OptionMap) :
    (∀ e, scanArgs .AppName OptionMap.empty args = .error e →
      ProgParameters.new resolve args = .error e) ∧
    (∀ tok rest, tok ≠ "-h" → tok ≠ "-p" → tok ≠ "-i" → tok ≠ "-t" →
      tok ≠ "-w" →
      scanArgs .Unset m (tok :: rest) = .error "Invalid Parameters") ∧
    (∀ st, st ≠ CmdLineOpts.Unset →
      scanArgs st m [] = .error "Invalid Parameters") ∧
    (scanArgs .AppName OptionMap.empty args = .ok m →
      (m.intervals = none ∨
        (∃ s, m.intervals = some s ∧ parseU32 s = none) ∨
        (∃ s, m.intervals = some s ∧ parseU32 s = some 0) ∨
        (∃ s, m.wait = some s ∧ parseU64 s = none) ∨
        (∃ s, m.timeout = some s ∧ parseU64 s = none) ∨
        m.host = none ∨ m.port = none) →
      isError (ProgParameters.new resolve args) = true) ∧
    (∀ e, ProgParameters.new resolve args = .error e →
      mainModel resolve args
          = .usageExit ("\nERROR: " ++ e ++ "\n\nUsage: " ++ get_usage) 1 ∧
        invokesRunner (mainModel resolve args) = false) := by
  refine ⟨?_, ?_, ?_, ?_, ?_⟩
  · intro e he
    simp [ProgParameters.new, he]
  · intro tok rest h1 h2 h3 h4 h5
    simp [scanArgs, h1, h2, h3, h4, h5]
  · intro st hst
    cases st <;> first | (exact absurd rfl hst) | simp [scanArgs]
  · intro hscan hbad
    cases hne : ProgParameters.new resolve args with
    | error e => simp [isError]
    | ok p =>
      exfalso
      obtain ⟨m', hscan', ⟨s', hmi', hps'⟩, hic, hw, ht, hh, hp⟩ :=
        new_ok_facts resolve args p hne
      rw [hscan] at hscan'
      cases Except.ok.inj hscan'
      rcases hbad with h | ⟨s, hs, h0⟩ | ⟨s, hs, h0⟩ | ⟨s, hs, h0⟩ |
        ⟨s, hs, h0⟩ | h | h
      · rw [h] at hmi'; cases hmi'
      · rw [hs] at hmi'
        have : s = s' := Option.some.inj hmi'
        subst this
        rw [h0] at hps'; cases hps'
      · rw [hs] at hmi'
        have : s = s' := Option.some.inj hmi'
        subst this
        rw [h0] at hps'
        have : p.interval_count = 0 := (Option.some.inj hps').symm
        omega
      · rw [hs] at hw
        simp [computeWait, h0] at hw
      · rw [hs] at ht
        simp [computeTimeout, h0] at ht
      · rw [h] at hh; cases hh
      · rw [h] at hp; cases hp
  · intro e he
    constructor
    · simp [mainModel, he]
    · simp [mainModel, he, invokesRunner]

/-- Witness for C7: `-i 0` is rejected and `main` never reaches the
runner. -/
theorem c7_validation_rejects_witness :
    isError (ProgParameters.new (fun _ => none)
        ["tcping", "-h", "x", "-p", "80", "-i", "0"]) = true ∧
    invokesRunner (mainModel (fun _ => none)
        ["tcping", "-h", "x", "-p", "80", "-i", "0"]) = false :=
  ⟨(c7_validation_rejects (fun _ => none)
        ["tcping", "-h", "x", "-p", "80", "-i", "0"]
        { host := some "x", port := some "80", intervals := some "0",
          timeout := none, wait := none }).2.2.2.1 (by decide)
      (Or.inr (Or.inr (Or.inl ⟨"0", by decide, by decide⟩))),
    ((c7_validation_rejects (fun _ => none)
        ["tcping", "-h", "x", "-p", "80", "-i", "0"]
        { host := some "x", port := some "80", intervals := some "0",
          timeout := none, wait := none }).2.2.2.2
      "Need at least 1 Interval" (by decide)).2⟩

/-- C8: a `-w` or `-t` value that parses as the non-negative integer `0`
(the only `u64` value `< 1`) is coerced up to exactly 1 second rather than
rejected; an absent `-w` defaults to 1 second and an absent `-t` defaults
to 5 seconds. -/
theorem c8_coercion_and_defaults
    (resolve : String → Option (List SocketAddr)) (args : List String)
    (m : OptionMap) (p : ProgParameters) (s t : String)
    (hscan : scanArgs .AppName OptionMap.empty args = .ok m)
    (hok : ProgParameters.new resolve args = .ok p) :
    (m.wait = some s → parseU64 s = some 0 → p.wait_interval = 1) ∧
    (m.wait = none → p.wait_interval = 1) ∧
    (m.timeout = some t → parseU64 t = some 0 → p.connection_timeout = 1) ∧
    (m.timeout = none → p.connection_timeout = 5) := by
  obtain ⟨m', hscan', _, _, hw, ht, _, _⟩ := new_ok_facts resolve args p hok
  rw [hscan] at hscan'
  cases Except.ok.inj hscan'
  refine ⟨?_, ?_, ?_, ?_⟩
  · intro hs h0
    rw [hs] at hw
    simp [computeWait, h0] at hw
    omega
  · intro hs
    rw [hs] at hw
    simp [computeWait] at hw
    omega
  · intro hs h0
    rw [hs] at ht
    simp [computeTimeout, h0] at ht
    omega
  · intro hs
    rw [hs] at ht
    simp [computeTimeout] at ht
    omega

/-- Witness for C8: `-w 0` yields a 1-second wait and an absent `-t`
yields the 5-second default. -/
theorem c8_coercion_and_defaults_witness :
    ProgParameters.new
        (fun s => if s = "x:80" then some [{ host := "x", port := 80 }]
          else none)
        ["tcping", "-h", "x", "-p", "80", "-i", "3", "-w", "0"]
      = .ok { target_host := "x", target_port := "80", interval_count := 3,
              connection_timeout := 5, wait_interval := 1,
              bare_socket := { host := "x", port := 80 } } ∧
    ({ target_host := "x", target_port := "80", interval_count := 3,
       connection_timeout := 5, wait_interval := 1,
       bare_socket := { host := "x", port := 80 } } :
        ProgParameters).wait_interval = 1 ∧
    ({ target_host := "x", target_port := "80", interval_count := 3,
       connection_timeout := 5, wait_interval := 1,
       bare_socket := { host := "x", port := 80 } } :
        ProgParameters).connection_timeout = 5 :=
  ⟨by decide,
    (c8_coercion_and_defaults
        (fun s => if s = "x:80" then some [{ host := "x", port := 80 }]
          else none)
        ["tcping", "-h", "x", "-p", "80", "-i", "3", "-w", "0"]
        { host := some "x", port := some "80", intervals := some "3",
          timeout := none, wait := some "0" }
        { target_host := "x", target_port := "80", interval_count := 3,
          connection_timeout := 5, wait_interval := 1,
          bare_socket := { host := "x", port := 80 } }
        "0" "" (by decide) (by decide)).1 rfl (by decide),
    (c8_coercion_and_defaults
        (fun s => if s = "x:80" then some [{ host := "x", port := 80 }]
          else none)
        ["tcping", "-h", "x", "-p", "80", "-i", "3", "-w", "0"]
        { host := some "x", port := some "80", intervals := some "3",
          timeout := none, wait := some "0" }
        { target_host := "x", target_port := "80", interval_count := 3,
          connection_timeout := 5, wait_interval := 1,
          bare_socket := { host := "x", port := 80 } }
        "0" "" (by decide) (by decide)).2.2.2 rfl⟩

/-! ### A concrete model of address resolution, for claim C9

The source delegates port validation entirely to
`format!`-ing `host:port` and calling `to_socket_addrs()` on it; it never
checks the 1–65535 range itself. -/

/-- Split a character list at every occurrence of a separator. -/
def splitChar (c : Char) : List Char → List (List Char)
  | [] => [[]]
  | x :: xs =>
    if x = c then [] :: splitChar c xs
    else
      match splitChar c xs with
      | [] => [[x]]
      | g :: gs => (x :: g) :: gs

/-- Decimal value of a digit list. -/
def digitsVal (ds : List Char) : ℕ :=
  ds.foldl (fun a c => a * 10 + (c.toNat - 48)) 0

/-- Non-empty and all ASCII digits. -/
def isDigits (ds : List Char) : Bool :=
  !ds.isEmpty && ds.all Char.isDigit

/-- A valid dotted-quad octet: digits, value ≤ 255, no leading zero. -/
def octetOk (ds : List Char) : Bool :=
  isDigits ds && decide (digitsVal ds ≤ 255) &&
    (decide (ds.length = 1) || !(ds.head? == some (Char.ofNat 48)))

/-- Modelled from the spec: address resolution is an external collaborator
(`to_socket_addrs()` from the Rust standard library), not code of this
repository.  This concrete model covers IPv4-literal hosts, mirroring
`std::net::SocketAddrV4`'s string parser: `"a.b.c.d:p"` resolves exactly
when the four octets are decimal values 0–255 and the port is a decimal
`u16`, i.e. any value 0–65535 — including port `0`. -/
def resolveV4 (s : String) : Option (List SocketAddr) :=
  match splitChar (Char.ofNat 58) s.data with
  | [hostCs, portCs] =>
    if isDigits portCs ∧ digitsVal portCs ≤ 65535 then
      let octs := splitChar (Char.ofNat 46) hostCs
      if octs.length = 4 ∧ octs.all octetOk then
        some [{ host := String.mk hostCs, port := digitsVal portCs }]
      else none
    else none
  | _ => none

/-- C9 (refutation at the failing input): `ProgParameters::new` accepts
`-p 0` — the `host:port` string `"127.0.0.1:0"` resolves, since the
standard library accepts any `u16` port including 0 — and the runner is
invoked, although the program's own usage text documents the range
1–65535.  Non-numeric ports and ports above 65535 do fail, but only
because resolution fails. -/
theorem c9_port_zero_accepted :
    isError (ProgParameters.new resolveV4
        ["tcping", "-h", "127.0.0.1", "-p", "0", "-i", "1"]) = false ∧
    invokesRunner (mainModel resolveV4
        ["tcping", "-h", "127.0.0.1", "-p", "0", "-i", "1"]) = true ∧
    ProgParameters.new resolveV4
        ["tcping", "-h", "127.0.0.1", "-p", "65536", "-i", "1"]
      = .error "Invalid host/port" ∧
    ProgParameters.new resolveV4
        ["tcping", "-h", "127.0.0.1", "-p", "abc", "-i", "1"]
      = .error "Invalid host/port" := by decide

/-! ### Last-occurrence semantics of repeated flags, for claim C10 -/

/-- Keep the first option if present, else the default. -/
def pick (o d : Option String) : Option String :=
  match o with
  | some v => some v
  | none => d

/-- Interleave a list of (flag, value) pairs into an argument list. -/
def flatten : List (String × String) → List String
  | [] => []
  | q :: qs => q.1 :: q.2 :: flatten qs

/-- The value following the last occurrence of `flag`, if any. -/
def lastVal (flag : String) : List (String × String) → Option String
  | [] => none
  | q :: qs =>
    match lastVal flag qs with
    | some v => some v
    | none => if q.1 = flag then some q.2 else none

theorem pick_none (o : Option String) : pick o none = o := by
  cases o <;> rfl

theorem pick_absorb (o : Option String) (v : String) (d : Option String) :
    pick (pick o (some v)) d = pick o (some v) := by
  cases o <;> rfl

theorem lastVal_cons (f : String) (q : String × String)
    (qs : List (String × String)) :
    lastVal f (q :: qs)
      = pick (lastVal f qs) (if q.1 = f then some q.2 else none) := rfl

theorem scan_pairs_last (ps : List (String × String)) :
    ∀ m : OptionMap,
      (∀ q ∈ ps, q.1 = "-h" ∨ q.1 = "-p" ∨ q.1 = "-i" ∨ q.1 = "-t" ∨
        q.1 = "-w") →
      scanArgs .Unset m (flatten ps) = .ok
        { host := pick (lastVal "-h" ps) m.host,
          port := pick (lastVal "-p" ps) m.port,
          intervals := pick (lastVal "-i" ps) m.intervals,
          timeout := pick (lastVal "-t" ps) m.timeout,
          wait := pick (lastVal "-w" ps) m.wait } := by
  induction ps with
  | nil =>
    intro m _
    simp [flatten, scanArgs, lastVal, pick]
  | cons q qs ih =>
    intro m hv
    obtain ⟨a, b⟩ := q
    have ha := hv (a, b) (List.mem_cons_self _ _)
    have hqs : ∀ q ∈ qs, q.1 = "-h" ∨ q.1 = "-p" ∨ q.1 = "-i" ∨
        q.1 = "-t" ∨ q.1 = "-w" :=
      fun q hq => hv q (List.mem_cons_of_mem _ hq)
    simp only at ha
    rcases ha with ha | ha | ha | ha | ha <;> subst ha <;>
      simp only [flatten, scanArgs, String.reduceEq, reduceIte] <;>
      rw [ih _ hqs] <;>
      simp [OptionMap.insert, lastVal_cons, pick_none, pick_absorb]

/-- C10: when flags repeat, the scan keeps the value following the last
occurrence of each flag, silently discarding earlier values and producing
no error: scanning an app name followed by any well-formed (flag, value)
pair list yields exactly the map of last values. -/
theorem c10_last_occurrence_wins (appName : String)
    (ps : List (String × String))
    (h : ∀ q ∈ ps, q.1 = "-h" ∨ q.1 = "-p" ∨ q.1 = "-i" ∨ q.1 = "-t" ∨
      q.1 = "-w") :
    scanArgs .AppName OptionMap.empty (appName :: flatten ps)
      = .ok { host := lastVal "-h" ps, port := lastVal "-p" ps,
              intervals := lastVal "-i" ps, timeout := lastVal "-t" ps,
              wait := lastVal "-w" ps } := by
  have hstep : scanArgs .AppName OptionMap.empty (appName :: flatten ps)
      = scanArgs .Unset OptionMap.empty (flatten ps) := rfl
  rw [hstep, scan_pairs_last ps OptionMap.empty h]
  simp [OptionMap.empty, pick_none]

/-- Witness for C10: `-h` given twice; the second value wins without an
error. -/
theorem c10_last_occurrence_wins_witness :
    scanArgs .AppName OptionMap.empty
        ["tcping", "-h", "a", "-h", "b", "-p", "80"]
      = .ok { host := some "b", port := some "80", intervals := none,
              timeout := none, wait := none } :=
  c10_last_occurrence_wins "tcping" [("-h", "a"), ("-h", "b"), ("-p", "80")]
    (by decide)

end Tcping
